import Mathlib

/-!
Verification of the `YouTubeAPI` client in
`AnonXMusic/platforms/Youtube.py` (repository VENOM-MUSIC), as a shallow
embedding.  Pure string manipulation (video-id extraction, ISO-8601
duration parsing, path construction) is embedded as executable Lean
functions on `String` and `List Char`; the network layer
(`_fetch_from_api`) is embedded by passing a `Provider` response oracle
and returning the list of attempted API calls as an explicit trace; the
download operation is embedded by threading an explicit filesystem /
randomness state.
-/

namespace YouTubeAPI

/-! ## Basic character and list utilities (Python string primitives) -/

/-- Membership of a character in the regex class used by the source,
namely a lowercase letter, uppercase letter, digit, underscore or hyphen. -/
def isIdChar (c : Char) : Bool :=
  c.isAlphanum || c = '_' || c = '-'

/-- Boolean test that the pattern `p` occurs at the start of `s`,
mirroring how a regex engine anchors a candidate match at one position. -/
def startsWithChars : List Char → List Char → Bool
  | [], _ => true
  | _ :: _, [] => false
  | p :: ps, c :: cs => p = c && startsWithChars ps cs

/-- Boolean substring test, mirroring the Python expression
`pat in s` on strings: the pattern occurs at some position of `s`. -/
def isSubstrOf (pat : List Char) (s : List Char) : Bool :=
  match s with
  | [] => pat.isEmpty
  | _ :: rest => startsWithChars pat s || isSubstrOf pat rest

/-- Embeds the Python expression `s.split(sep)[-1]` for a single-character
separator: the suffix of `s` after its last occurrence of the slash
separator (the whole string when no slash occurs). -/
def lastSeg : List Char → List Char
  | [] => []
  | c :: rest =>
    if c = '/' then lastSeg rest
    else if '/' ∈ rest then lastSeg rest
    else c :: rest

/-- Embeds the Python expression `s.split(sep)[0]` for the question-mark
separator: the longest question-mark-free initial run of `s`. -/
def beforeFirstQ : List Char → List Char
  | [] => []
  | c :: rest => if c = '?' then [] else c :: beforeFirstQ rest

/-! ## `YouTubeAPI._extract_video_id` -/

/-- One candidate position for the regex `v=([a-zA-Z0-9_-]{11})`: the
input must begin with the two literal characters `v` and `=` followed by
at least 11 characters of the id class; the captured group is exactly
those 11 characters. -/
def vidAt (l : List Char) : Option (List Char) :=
  match l with
  | c1 :: c2 :: tail =>
    if c1 = 'v' then
      if c2 = '=' then
        if 11 ≤ tail.length then
          if (tail.take 11).all isIdChar then some (tail.take 11) else none
        else none
      else none
    else none
  | _ => none

/-- Embeds `re.search(r"v=([a-zA-Z0-9_-]{11})", link)`: the leftmost
position where `vidAt` matches, scanning left to right. -/
def findVid : List Char → Option (List Char)
  | [] => none
  | c :: rest =>
    match vidAt (c :: rest) with
    | some g => some g
    | none => findVid rest

/-- Embeds `YouTubeAPI._extract_video_id` (Youtube.py lines 60-66):
if the substring `youtu.be` occurs in the link, return
`link.split('/')[-1].split('?')[0]`; otherwise return the first match of
the regex `v=([a-zA-Z0-9_-]{11})`, or `none` when there is no match. -/
def extract_video_id (link : String) : Option String :=
  if isSubstrOf ("youtu.be".data) link.data then
    some (String.mk (beforeFirstQ (lastSeg link.data)))
  else
    (findVid link.data).map String.mk

/-- Python truthiness of an optional string, as used by the guards
`if not query` and `self._extract_video_id(link) or ...` in the source:
`none` and the empty string are falsy. -/
def isTruthy : Option String → Bool
  | none => false
  | some s => s != ""

/-! ## ISO-8601 duration parsing (`isodate` model and `_parse_duration`) -/

/-- Longest initial run of decimal digits of the input, together with the
remaining characters. -/
def spanDigits : List Char → List Char × List Char
  | [] => ([], [])
  | c :: rest =>
    if c.isDigit then
      let p := spanDigits rest
      (c :: p.1, p.2)
    else ([], c :: rest)

/-- Numeric value of a list of decimal digit characters, most significant
first. -/
def digitsVal (ds : List Char) : Nat :=
  ds.foldl (fun acc c => 10 * acc + (c.toNat - 48)) 0

/-- One optional component of an ISO-8601 period, as matched by one group
of the isodate period regex: a nonempty digit run directly followed by
the designator character `d`.  When the input does not start with such a
component the input is returned unchanged. -/
def parseComp (d : Char) (s : List Char) : Option Nat × List Char :=
  let p := spanDigits s
  if p.1.isEmpty then (none, s)
  else
    match p.2 with
    | c :: r2 => if c = d then (some (digitsVal p.1), r2) else (none, s)
    | [] => (none, s)

/-- Total seconds of a parsed period, mirroring
`int(duration_obj.total_seconds())` on the isodate result: weeks, days,
hours, minutes and seconds contribute; the year and month components are
carried by an `isodate.Duration` whose `total_seconds` delegates to its
internal timedelta and therefore ignores them. -/
def periodSeconds (w d h mi se : Option Nat) : Nat :=
  604800 * w.getD 0 + 86400 * d.getD 0 + 3600 * h.getD 0 +
    60 * mi.getD 0 + se.getD 0

/-- Body of the isodate period grammar after the leading `P`:
optional year, month, week and day components, then an optional time part
introduced by `T` with optional hour, minute and second components; the
whole input must be consumed. -/
def parse_period_tail (s : List Char) : Option Nat :=
  let py := parseComp 'Y' s
  let pmo := parseComp 'M' py.2
  let pw := parseComp 'W' pmo.2
  let pd := parseComp 'D' pw.2
  match pd.2 with
  | [] => some (periodSeconds pw.1 pd.1 none none none)
  | c :: s5 =>
    if c = 'T' then
      let ph := parseComp 'H' s5
      let pmi := parseComp 'M' ph.2
      let pse := parseComp 'S' pmi.2
      if pse.2.isEmpty then
        some (periodSeconds pw.1 pd.1 ph.1 pmi.1 pse.1)
      else none
    else none

/-- Modelled from the spec section 4.1 step 4 and the external library
call `isodate.parse_duration` (the library is not part of this
repository): parse an ISO-8601 duration of the shape
`P[nY][nM][nW][nD][T[nH][nM][nS]]` with unsigned integer components and
return its total whole seconds; `none` models a raised `ISO8601Error`.
The bare string `P` is rejected because the library regex requires a word
character directly after `P`.  Signed or fractional components and the
alternative datetime-shaped duration format lie outside the fragment this
repository exercises and are treated as unparseable. -/
def isodate_parse_duration (s : String) : Option Nat :=
  match s.data with
  | [] => none
  | c :: rest =>
    if c = 'P' then
      match rest with
      | [] => none
      | c2 :: _ =>
        if c2.isAlphanum || c2 = '_' then parse_period_tail rest else none
    else none

/-- Embeds the Python format specifier `{n:02d}` for a natural number:
left pad with one zero when the value has a single digit. -/
def pad2 (n : Nat) : String :=
  if n < 10 then "0" ++ toString n else toString n

/-- Embeds `YouTubeAPI._parse_duration` (Youtube.py lines 30-40): a falsy
input (absent or empty string) yields `(0, "00:00")`; a parse failure of
the isodate model is caught and also yields `(0, "00:00")`; otherwise the
result is the total seconds paired with the display string built by
`divmod(total_seconds, 60)` and the format `{mins:02d}:{secs:02d}`. -/
def parse_duration (duration_iso : Option String) : Nat × String :=
  match duration_iso with
  | none => (0, "00:00")
  | some s =>
    if s = "" then (0, "00:00")
    else
      match isodate_parse_duration s with
      | none => (0, "00:00")
      | some total => (total, pad2 (total / 60) ++ ":" ++ pad2 (total % 60))

/-! ## The metadata provider and the network layer (`_fetch_from_api`) -/

/-- One item of a `search` endpoint response as consumed by the source:
only `item['id']['videoId']` is read from search items. -/
structure SearchItem where
  videoId : String
deriving DecidableEq

/-- One item of a `videos` (detail) endpoint response as consumed by the
source: `item['id']`, `item['snippet']['title']`, the optional
`snippet.thumbnails.high.url` chain and the optional
`contentDetails.duration` field. -/
structure VideoItem where
  id : String
  title : String
  thumb : Option String
  duration : Option String
deriving DecidableEq

/-- One item of a `playlistItems` endpoint response as consumed by the
source: only `item['snippet']['resourceId']['videoId']` is read. -/
structure PlaylistItem where
  videoId : String
deriving DecidableEq

/-- Response oracle for the remote metadata provider.  Each field models
the outcome of one `_fetch_from_api` round trip for one endpoint:
`none` is the exception path (transport failure, timeout, non-2xx status
raised by `raise_for_status`, or a JSON decoding failure), all caught by
`_fetch_from_api` and converted to `None`; `some items` is a decoded
response carrying its `items` list. -/
structure Provider where
  searchResp : String → Option (List SearchItem)
  videosResp : String → Option (List VideoItem)
  playlistResp : String → Nat → Option (List PlaylistItem)

/-- One attempted network request, with the query parameters the source
attaches, including the API key that `_fetch_from_api` always inserts
with `params['key'] = YOUTUBE_API_KEY`. -/
inductive ApiCall where
  | search (q : String) (maxResults : Nat) (key : String)
  | videos (id : String) (key : String)
  | playlistItems (playlistId : String) (maxResults : Nat) (key : String)
deriving DecidableEq

/-- Embeds `YouTubeAPI.__init__` (Youtube.py lines 27-28): the result is
`true` exactly when the missing-key error is logged, namely when the
configured key is falsy (the empty string). -/
def init_logs_missing_key (key : String) : Bool :=
  key == ""

/-- Embeds `_fetch_from_api` at the `search` endpoint (Youtube.py lines
42-58 as called from `_get_video_details`): the key is attached and the
request is issued unconditionally; the trace records the attempt.  The
result is the oracle outcome, `none` standing for a caught exception. -/
def fetch_search (p : Provider) (key : String) (q : String) (maxResults : Nat) :
    Option (List SearchItem) × List ApiCall :=
  (p.searchResp q, [ApiCall.search q maxResults key])

/-- Embeds `_fetch_from_api` at the `videos` endpoint. -/
def fetch_videos (p : Provider) (key : String) (id : String) :
    Option (List VideoItem) × List ApiCall :=
  (p.videosResp id, [ApiCall.videos id key])

/-- Embeds `_fetch_from_api` at the `playlistItems` endpoint. -/
def fetch_playlistItems (p : Provider) (key : String) (playlistId : String)
    (maxResults : Nat) : Option (List PlaylistItem) × List ApiCall :=
  (p.playlistResp playlistId maxResults, [ApiCall.playlistItems playlistId maxResults key])

/-! ## `_get_video_details` and `details` -/

/-- Embeds the `is_id=True` branch of `YouTubeAPI._get_video_details`
(Youtube.py lines 68-88): fetch the `videos` endpoint with the id; when
the fetch failed or the `items` list is falsy return `none`, otherwise
return the first item. -/
def get_video_details_by_id (p : Provider) (key : String) (q : String) :
    Option VideoItem × List ApiCall :=
  match fetch_videos p key q with
  | (none, calls) => (none, calls)
  | (some items, calls) => (items.head?, calls)

/-- Embeds the `is_id=False` branch of `YouTubeAPI._get_video_details`:
fetch the `search` endpoint with `maxResults = 1`; when the fetch failed
or the `items` list is falsy return `none`, otherwise the first item. -/
def get_video_details_by_search (p : Provider) (key : String) (q : String) :
    Option SearchItem × List ApiCall :=
  match fetch_search p key q 1 with
  | (none, calls) => (none, calls)
  | (some items, calls) => (items.head?, calls)

/-- Result tuple of `details`: title, duration display string, duration
in seconds, optional thumbnail URL, video id — in source order. -/
abbrev DetailsTuple := String × String × Nat × Option String × String

/-- Shapes one fetched detail item into the return tuple of `details`
(Youtube.py lines 104-116), raising (modelled by `Except.error`) when the
item is absent. -/
def finish_details : Option VideoItem → Except String DetailsTuple
  | none => Except.error "Could not get details for the video ID."
  | some item =>
    let d := parse_duration item.duration
    Except.ok (item.title, d.2, d.1, item.thumb, item.id)

/-- The free-text branch of `details` (Youtube.py lines 93-100): search
first; an empty or failed search raises immediately; otherwise the id of
the first search result is looked up on the detail endpoint. -/
def details_search_branch (p : Provider) (key : String) (link : String) :
    Except String DetailsTuple × List ApiCall :=
  match get_video_details_by_search p key link with
  | (none, calls1) => (Except.error "No video found on YouTube.", calls1)
  | (some s0, calls1) =>
    match get_video_details_by_id p key s0.videoId with
    | (item, calls2) => (finish_details item, calls1 ++ calls2)

/-- Embeds `YouTubeAPI.details` (Youtube.py lines 90-116).  The Python
`videoid` flag is a truthiness switch: when set, the raw `link` argument
is used as the id; otherwise the id is extracted from the link, and a
falsy extraction result routes the call through the search branch.
`Except.error` models the raised `ValueError`; the second component is
the trace of attempted API calls in order. -/
def details (p : Provider) (key : String) (link : String) (videoid : Bool) :
    Except String DetailsTuple × List ApiCall :=
  let query := if videoid then some link else extract_video_id link
  if isTruthy query then
    match get_video_details_by_id p key (query.getD "") with
    | (item, calls) => (finish_details item, calls)
  else
    details_search_branch p key link

/-! ## `playlist` -/

/-- Embeds `re.search(r"list=([a-zA-Z0-9_-]+)", link)`: the group of the
leftmost occurrence of the literal `list=` followed by at least one
character of the id class; the group is the maximal id-class run. -/
def findListId : List Char → Option (List Char)
  | [] => none
  | c :: rest =>
    if startsWithChars ("list=".data) (c :: rest) then
      let g := ((c :: rest).drop 5).takeWhile isIdChar
      if g.isEmpty then findListId rest else some g
    else findListId rest

/-- Embeds `YouTubeAPI.playlist` (Youtube.py lines 147-169).  When the
`videoid` flag is set the link is the playlist id; otherwise the id is
the first `list=` match, and an unmatchable link returns the empty list
with no network call.  One `playlistItems` round trip is issued with
`maxResults = limit`; a failed or item-less response leaves the id list
empty; otherwise the ids are collected in response order. -/
def playlist (p : Provider) (key : String) (link : String) (limit : Nat)
    (videoid : Bool) : List String × List ApiCall :=
  let pid? := if videoid then some link else (findListId link.data).map String.mk
  match pid? with
  | none => ([], [])
  | some pid =>
    match fetch_playlistItems p key pid limit with
    | (none, calls) => ([], calls)
    | (some items, calls) => (items.map PlaylistItem.videoId, calls)

/-! ## `download` -/

/-- State threaded through the download embedding: the set of paths that
exist on local storage, plus the stream of values produced by
`os.urandom(4).hex()` together with a cursor into it. -/
structure DlState where
  files : List String
  rng : Nat → String
  rngIdx : Nat

/-- Draws one fresh random suffix, embedding
`f"temp_{os.urandom(4).hex()}"`. -/
def takeTemp (s : DlState) : String × DlState :=
  ("temp_" ++ s.rng s.rngIdx, { s with rngIdx := s.rngIdx + 1 })

/-- Embeds the deterministic output path
`os.path.join("downloads", f"{video_id}.mp4")` respectively `.mp3`: the
video id of the source never starts with a slash, so the join is plain
concatenation. -/
def media_filepath (video_id : String) (video : Bool) : String :=
  "downloads/" ++ video_id ++ (if video then ".mp4" else ".mp3")

/-- Embeds the inner worker `ytdl_download` of `YouTubeAPI.download`
(Youtube.py lines 191-228).  The video id is the extracted id when
truthy, else a fresh random temp name; the file path is
`os.path.join("downloads", f"{video_id}.mp4")` for video and `.mp3` for
audio.  An existing file at that path is returned at once without
invoking yt-dlp; otherwise one resolver invocation happens (counted in
the third component), creating the file on success and yielding the
structured failure `(none, false)` when the caught exception path is
taken. -/
def ytdl_download (resolve : String → Bool) (video : Bool) (link : String)
    (s : DlState) : (Option String × Bool) × DlState × Nat :=
  let idState :=
    match extract_video_id link with
    | some v => if v != "" then (v, s) else takeTemp s
    | none => takeTemp s
  let filepath := media_filepath idState.1 video
  if filepath ∈ idState.2.files then
    ((some filepath, true), idState.2, 0)
  else if resolve link then
    ((some filepath, true), { idState.2 with files := filepath :: idState.2.files }, 1)
  else
    ((none, false), idState.2, 1)

/-- Embeds `YouTubeAPI.download` (Youtube.py lines 171-232): when the
`videoid` flag is set the link is rebuilt from the watch-URL base, then
the worker runs; the worker result pair is returned unchanged. -/
def download (resolve : String → Bool) (link : String) (video : Bool)
    (videoid : Bool) (s : DlState) : (Option String × Bool) × DlState × Nat :=
  ytdl_download resolve video
    (if videoid then "https://www.youtube.com/watch?v=" ++ link else link) s

end YouTubeAPI

namespace YouTubeAPI

/-! ## Helper lemmas about the string primitives -/

lemma data_append (s t : String) : (s ++ t).data = s.data ++ t.data := rfl

lemma mk_data (s : String) : String.mk s.data = s := rfl

lemma vidAt_of_ne_v {c : Char} (l : List Char) (h : ¬ c = 'v') :
    vidAt (c :: l) = none := by
  cases l with
  | nil => rfl
  | cons c2 tail => simp [vidAt, h]

lemma findVid_cons (c : Char) (l : List Char) :
    findVid (c :: l) =
      match vidAt (c :: l) with
      | some g => some g
      | none => findVid l := rfl

lemma findVid_append_of_no_v (p r : List Char) (h : 'v' ∉ p) :
    findVid (p ++ r) = findVid r := by
  induction p with
  | nil => rfl
  | cons c p' ih =>
    have hc : ¬ c = 'v' := fun hcv => h (hcv ▸ List.mem_cons_self c p')
    have h' : 'v' ∉ p' := fun hm => h (List.mem_cons_of_mem c hm)
    rw [List.cons_append, findVid_cons, vidAt_of_ne_v _ hc, ih h']

lemma vidAt_match (id suf : List Char) (hlen : id.length = 11)
    (hall : id.all isIdChar = true) :
    vidAt ('v' :: '=' :: (id ++ suf)) = some id := by
  have htake : (id ++ suf).take 11 = id := List.take_left' hlen
  have hle : 11 ≤ (id ++ suf).length := by
    rw [List.length_append, hlen]; omega
  simp [vidAt, htake, hall]
  omega

lemma findVid_at_match (id suf : List Char) (hlen : id.length = 11)
    (hall : id.all isIdChar = true) :
    findVid ('v' :: '=' :: (id ++ suf)) = some id := by
  rw [findVid_cons, vidAt_match id suf hlen hall]

lemma lastSeg_no_slash (l : List Char) (h : '/' ∉ l) : lastSeg l = l := by
  induction l with
  | nil => rfl
  | cons c rest ih =>
    have hc : ¬ c = '/' := fun hcv => h (hcv ▸ List.mem_cons_self c rest)
    have h' : '/' ∉ rest := fun hm => h (List.mem_cons_of_mem c hm)
    simp [lastSeg, hc, h', ih h']

lemma lastSeg_append (s t : List Char) (h : '/' ∉ t) :
    lastSeg (s ++ '/' :: t) = t := by
  induction s with
  | nil => simp [lastSeg, lastSeg_no_slash t h]
  | cons c s' ih =>
    by_cases hc : c = '/'
    · simp [lastSeg, hc, ih]
    · have hmem : '/' ∈ s' ++ '/' :: t :=
        List.mem_append_right s' (List.mem_cons_self '/' t)
      simp [lastSeg, hc, hmem, ih]

lemma beforeFirstQ_no_q (l : List Char) (h : '?' ∉ l) :
    beforeFirstQ l = l := by
  induction l with
  | nil => rfl
  | cons c rest ih =>
    have hc : ¬ c = '?' := fun hcv => h (hcv ▸ List.mem_cons_self c rest)
    have h' : '?' ∉ rest := fun hm => h (List.mem_cons_of_mem c hm)
    simp [beforeFirstQ, hc, ih h']

lemma beforeFirstQ_append (id q : List Char) (h : '?' ∉ id) :
    beforeFirstQ (id ++ '?' :: q) = id := by
  induction id with
  | nil => simp [beforeFirstQ]
  | cons c id' ih =>
    have hc : ¬ c = '?' := fun hcv => h (hcv ▸ List.mem_cons_self c id')
    have h' : '?' ∉ id' := fun hm => h (List.mem_cons_of_mem c hm)
    simp [beforeFirstQ, hc, ih h']

lemma startsWithChars_append (p s t : List Char)
    (h : startsWithChars p s = true) : startsWithChars p (s ++ t) = true := by
  induction p generalizing s with
  | nil => rfl
  | cons x ps ih =>
    cases s with
    | nil => simp [startsWithChars] at h
    | cons c cs =>
      rw [startsWithChars, Bool.and_eq_true] at h
      rw [List.cons_append, startsWithChars, Bool.and_eq_true]
      exact ⟨h.1, ih cs h.2⟩

lemma isSubstrOf_nil_pat (t : List Char) : isSubstrOf [] t = true := by
  cases t with
  | nil => rfl
  | cons c rest => rw [isSubstrOf]; simp [startsWithChars]

lemma isSubstrOf_append (pat s t : List Char)
    (h : isSubstrOf pat s = true) : isSubstrOf pat (s ++ t) = true := by
  induction s with
  | nil =>
    rw [isSubstrOf] at h
    have : pat = [] := List.isEmpty_iff.mp h
    subst this
    exact isSubstrOf_nil_pat t
  | cons c rest ih =>
    rw [isSubstrOf, Bool.or_eq_true] at h
    rw [List.cons_append, isSubstrOf, Bool.or_eq_true]
    cases h with
    | inl h1 => exact Or.inl (startsWithChars_append _ _ _ h1)
    | inr h2 => exact Or.inr (ih h2)

end YouTubeAPI

open YouTubeAPI in
/-- C7: for every locator recognized as a direct link containing the
11-character `v=<id>` pattern (and not carrying the short-link marker
`youtu.be`, which the source checks first), `_extract_video_id` returns
exactly that 11-character id; for the short-link form
`https://youtu.be/<id>` — with or without a trailing query string — it
returns the last path segment with the query stripped; for any locator in
neither form it returns `none`. -/
theorem c7_extract_video_id_contract :
    (∀ pre id suf : String, 'v' ∉ pre.data →
      isSubstrOf ("youtu.be".data) (pre ++ "v=" ++ id ++ suf).data = false →
      id.data.length = 11 → id.data.all isIdChar = true →
      extract_video_id (pre ++ "v=" ++ id ++ suf) = some id) ∧
    (∀ id q : String, '/' ∉ id.data → '?' ∉ id.data → '/' ∉ q.data →
      extract_video_id ("https://youtu.be/" ++ id) = some id ∧
      extract_video_id ("https://youtu.be/" ++ id ++ "?" ++ q) = some id) ∧
    (∀ link : String, isSubstrOf ("youtu.be".data) link.data = false →
      findVid link.data = none → extract_video_id link = none) := by
  refine ⟨?_, ?_, ?_⟩
  · intro pre id suf hv hyt hlen hall
    rw [extract_video_id]
    rw [show (pre ++ "v=" ++ id ++ suf).data =
        pre.data ++ 'v' :: '=' :: (id.data ++ suf.data) from by
      simp [data_append]] at hyt ⊢
    rw [hyt]
    simp only [if_false, Bool.false_eq_true]
    rw [findVid_append_of_no_v _ _ hv, findVid_at_match _ _ hlen hall,
      Option.map_some']
  · intro id q hid1 hid2 hq
    constructor
    · have hdata : ("https://youtu.be/" ++ id).data =
          ("https://youtu.be".data) ++ '/' :: id.data := by
        simp [data_append]
      have hsub : isSubstrOf ("youtu.be".data) ("https://youtu.be/" ++ id).data
          = true := by
        rw [show ("https://youtu.be/" ++ id).data =
            ("https://youtu.be/".data) ++ id.data from rfl]
        exact isSubstrOf_append _ _ _ (by decide)
      rw [extract_video_id, hsub, if_pos rfl, hdata,
        lastSeg_append _ _ hid1, beforeFirstQ_no_q _ hid2, mk_data]
    · have hdata : ("https://youtu.be/" ++ id ++ "?" ++ q).data =
          ("https://youtu.be".data) ++ '/' :: (id.data ++ '?' :: q.data) := by
        simp [data_append]
      have hnos : '/' ∉ id.data ++ '?' :: q.data := by
        intro hmem
        rcases List.mem_append.mp hmem with h1 | h2
        · exact hid1 h1
        · rcases List.mem_cons.mp h2 with h3 | h4
          · exact absurd h3 (by decide)
          · exact hq h4
      have hsub : isSubstrOf ("youtu.be".data)
          ("https://youtu.be/" ++ id ++ "?" ++ q).data = true := by
        rw [show ("https://youtu.be/" ++ id ++ "?" ++ q).data =
            ("https://youtu.be/".data) ++ (id.data ++ '?' :: q.data) from by
          simp [data_append]]
        exact isSubstrOf_append _ _ _ (by decide)
      rw [extract_video_id, hsub, if_pos rfl, hdata,
        lastSeg_append _ _ hnos, beforeFirstQ_append _ _ hid2, mk_data]
  · intro link hsub hfind
    rw [extract_video_id, hsub]
    simp only [if_false, Bool.false_eq_true]
    rw [hfind, Option.map_none']

open YouTubeAPI in
/-- Witness for C7 at the concrete locators of the spec: the watch-URL
form, the short-link example `https://youtu.be/dQw4w9WgXcQ`, a short link
with a query string, and a free-text locator. -/
theorem c7_extract_video_id_contract_witness :
    extract_video_id "https://www.youtube.com/watch?v=dQw4w9WgXcQ" =
      some "dQw4w9WgXcQ" ∧
    extract_video_id "https://youtu.be/dQw4w9WgXcQ" = some "dQw4w9WgXcQ" ∧
    extract_video_id "https://youtu.be/dQw4w9WgXcQ?feature=shared" =
      some "dQw4w9WgXcQ" ∧
    extract_video_id "Arijit Singh Tum Hi Ho" = none := by
  have h1 := c7_extract_video_id_contract.1 "https://www.youtube.com/watch?"
    "dQw4w9WgXcQ" "" (by decide) (by decide) (by decide) (by decide)
  have h2 := c7_extract_video_id_contract.2.1 "dQw4w9WgXcQ" "feature=shared"
    (by decide) (by decide) (by decide)
  have h3 := c7_extract_video_id_contract.2.2 "Arijit Singh Tum Hi Ho"
    (by decide) (by decide)
  exact ⟨h1, h2.1, h2.2, h3⟩

namespace YouTubeAPI

/-! ## Helper lemmas about the duration parser -/

lemma spanDigits_append (ds r : List Char) (hds : ∀ c ∈ ds, c.isDigit = true)
    (hr : ∀ c r', r = c :: r' → c.isDigit = false) :
    spanDigits (ds ++ r) = (ds, r) := by
  induction ds with
  | nil =>
    cases r with
    | nil => rfl
    | cons c r' => simp [spanDigits, hr c r' rfl]
  | cons d ds' ih =>
    have hd : d.isDigit = true := hds d (List.mem_cons_self _ _)
    have hds' : ∀ c ∈ ds', c.isDigit = true :=
      fun c hc => hds c (List.mem_cons_of_mem _ hc)
    simp [spanDigits, hd, ih hds']

lemma parseComp_none_head (d : Char) (s : List Char)
    (h : ∀ c r', s = c :: r' → c.isDigit = false) :
    parseComp d s = (none, s) := by
  cases s with
  | nil => rfl
  | cons c r' => simp [parseComp, spanDigits, h c r' rfl]

lemma isEmpty_false_of_ne_nil {ds : List Char} (h : ds ≠ []) :
    ds.isEmpty = false := by
  cases ds with
  | nil => exact absurd rfl h
  | cons c cs => rfl

lemma parseComp_hit (d : Char) (ds r : List Char) (hne : ds ≠ [])
    (hds : ∀ c ∈ ds, c.isDigit = true) (hd : d.isDigit = false) :
    parseComp d (ds ++ d :: r) = (some (digitsVal ds), r) := by
  have hspan : spanDigits (ds ++ d :: r) = (ds, d :: r) :=
    spanDigits_append ds (d :: r) hds
      (fun c r' h => by injection h with h1 _; rw [← h1]; exact hd)
  simp [parseComp, hspan, isEmpty_false_of_ne_nil hne]

lemma parseComp_wrong_des (d c : Char) (ds r : List Char) (hne : ds ≠ [])
    (hds : ∀ x ∈ ds, x.isDigit = true) (hc : c.isDigit = false)
    (hcd : ¬ c = d) :
    parseComp d (ds ++ c :: r) = (none, ds ++ c :: r) := by
  have hspan : spanDigits (ds ++ c :: r) = (ds, c :: r) :=
    spanDigits_append ds (c :: r) hds
      (fun x r' h => by injection h with h1 _; rw [← h1]; exact hc)
  simp [parseComp, hspan, isEmpty_false_of_ne_nil hne, hcd]

lemma parseComp_all_digits (d : Char) (ds : List Char)
    (hds : ∀ c ∈ ds, c.isDigit = true) :
    parseComp d ds = (none, ds) := by
  have hspan : spanDigits ds = (ds, []) := by
    have h := spanDigits_append ds [] hds (fun c r' h => by cases h)
    simpa using h
  cases ds with
  | nil => rfl
  | cons c cs => simp [parseComp, hspan]

lemma parse_period_tail_T (s5 : List Char) :
    parse_period_tail ('T' :: s5) =
      (let ph := parseComp 'H' s5
       let pmi := parseComp 'M' ph.2
       let pse := parseComp 'S' pmi.2
       if pse.2.isEmpty then
         some (periodSeconds none none ph.1 pmi.1 pse.1)
       else none) := by
  have hT : ∀ c r', ('T' :: s5) = c :: r' → c.isDigit = false := by
    intro c r' h
    injection h with h1 _
    rw [← h1]; decide
  simp [parse_period_tail, parseComp_none_head _ _ hT]

lemma parse_period_tail_MS (ds1 ds2 : List Char) (h1 : ds1 ≠ [])
    (h2 : ds2 ≠ []) (hd1 : ∀ c ∈ ds1, c.isDigit = true)
    (hd2 : ∀ c ∈ ds2, c.isDigit = true) :
    parse_period_tail ('T' :: (ds1 ++ 'M' :: (ds2 ++ ['S']))) =
      some (60 * digitsVal ds1 + digitsVal ds2) := by
  rw [parse_period_tail_T]
  have hH : parseComp 'H' (ds1 ++ 'M' :: (ds2 ++ ['S'])) =
      (none, ds1 ++ 'M' :: (ds2 ++ ['S'])) :=
    parseComp_wrong_des 'H' 'M' ds1 (ds2 ++ ['S']) h1 hd1 (by decide) (by decide)
  have hM : parseComp 'M' (ds1 ++ 'M' :: (ds2 ++ ['S'])) =
      (some (digitsVal ds1), ds2 ++ ['S']) :=
    parseComp_hit 'M' ds1 (ds2 ++ ['S']) h1 hd1 (by decide)
  have hS : parseComp 'S' (ds2 ++ ['S']) = (some (digitsVal ds2), []) :=
    parseComp_hit 'S' ds2 [] h2 hd2 (by decide)
  simp [hH, hM, hS, periodSeconds]

lemma parse_period_tail_S (ds : List Char) (h : ds ≠ [])
    (hd : ∀ c ∈ ds, c.isDigit = true) :
    parse_period_tail ('T' :: (ds ++ ['S'])) = some (digitsVal ds) := by
  rw [parse_period_tail_T]
  have hH : parseComp 'H' (ds ++ ['S']) = (none, ds ++ ['S']) :=
    parseComp_wrong_des 'H' 'S' ds [] h hd (by decide) (by decide)
  have hM : parseComp 'M' (ds ++ ['S']) = (none, ds ++ ['S']) :=
    parseComp_wrong_des 'M' 'S' ds [] h hd (by decide) (by decide)
  have hS : parseComp 'S' (ds ++ ['S']) = (some (digitsVal ds), []) :=
    parseComp_hit 'S' ds [] h hd (by decide)
  simp [hH, hM, hS, periodSeconds]

lemma parse_period_tail_M (ds : List Char) (h : ds ≠ [])
    (hd : ∀ c ∈ ds, c.isDigit = true) :
    parse_period_tail ('T' :: (ds ++ ['M'])) = some (60 * digitsVal ds) := by
  rw [parse_period_tail_T]
  have hH : parseComp 'H' (ds ++ ['M']) = (none, ds ++ ['M']) :=
    parseComp_wrong_des 'H' 'M' ds [] h hd (by decide) (by decide)
  have hM : parseComp 'M' (ds ++ ['M']) = (some (digitsVal ds), []) :=
    parseComp_hit 'M' ds [] h hd (by decide)
  have hS : parseComp 'S' ([] : List Char) = (none, []) :=
    parseComp_all_digits 'S' [] (by intro c hc; cases hc)
  simp [hH, hM, hS, periodSeconds]

lemma parse_duration_PT (l : List Char) :
    parse_duration (some (String.mk ('P' :: 'T' :: l))) =
      match parse_period_tail ('T' :: l) with
      | none => (0, "00:00")
      | some total =>
        (total, pad2 (total / 60) ++ ":" ++ pad2 (total % 60)) := by
  have hne : ¬ String.mk ('P' :: 'T' :: l) = "" := by
    intro h
    have h2 := congrArg String.data h
    simp at h2
  rw [parse_duration, if_neg hne]
  rfl

end YouTubeAPI

namespace YouTubeAPI

/-! ## Helper lemmas about extraction results and the download worker -/

lemma slash_not_mem_lastSeg (l : List Char) : '/' ∉ lastSeg l := by
  induction l with
  | nil => simp [lastSeg]
  | cons c rest ih =>
    by_cases hc : c = '/'
    · simpa [lastSeg, hc] using ih
    · by_cases hm : '/' ∈ rest
      · simpa [lastSeg, hc, hm] using ih
      · simp [lastSeg, hc, hm]
        intro h
        exact hc h.symm

lemma mem_of_mem_beforeFirstQ (c : Char) (l : List Char)
    (h : c ∈ beforeFirstQ l) : c ∈ l := by
  induction l with
  | nil => simp [beforeFirstQ] at h
  | cons x rest ih =>
    by_cases hx : x = '?'
    · simp [beforeFirstQ, hx] at h
    · rw [beforeFirstQ, if_neg hx] at h
      rcases List.mem_cons.mp h with h1 | h2
      · exact h1 ▸ List.mem_cons_self x rest
      · exact List.mem_cons_of_mem x (ih h2)

lemma vidAt_all_idChar (l g : List Char) (h : vidAt l = some g) :
    g.all isIdChar = true := by
  match l with
  | [] => simp [vidAt] at h
  | [c] => simp [vidAt] at h
  | c1 :: c2 :: tail =>
    rw [vidAt] at h
    split_ifs at h with h1 h2 h3 h4
    · injection h with h5
      rw [← h5]
      exact h4

lemma findVid_all_idChar (l g : List Char) (h : findVid l = some g) :
    g.all isIdChar = true := by
  induction l with
  | nil => simp [findVid] at h
  | cons c rest ih =>
    rw [findVid_cons] at h
    cases hv : vidAt (c :: rest) with
    | some g2 =>
      rw [hv] at h
      injection h with h2
      exact h2 ▸ vidAt_all_idChar _ _ hv
    | none =>
      rw [hv] at h
      exact ih h

lemma extract_video_id_no_slash (link v : String)
    (h : extract_video_id link = some v) : '/' ∉ v.data := by
  rw [extract_video_id] at h
  by_cases hs : isSubstrOf ("youtu.be".data) link.data = true
  · rw [if_pos hs] at h
    injection h with h2
    intro hmem
    rw [← h2] at hmem
    exact slash_not_mem_lastSeg _ (mem_of_mem_beforeFirstQ _ _ hmem)
  · rw [if_neg hs] at h
    cases hf : findVid link.data with
    | none => rw [hf] at h; cases h
    | some g =>
      rw [hf, Option.map_some'] at h
      injection h with h2
      intro hmem
      rw [← h2] at hmem
      have hall := findVid_all_idChar _ _ hf
      have := (List.all_eq_true.mp hall) '/' hmem
      simp [isIdChar] at this

/-- Unfolding equation of the download worker, with the id-selection pair
made explicit. -/
lemma ytdl_download_eq (resolve : String → Bool) (video : Bool)
    (link : String) (s : DlState) :
    ytdl_download resolve video link s =
      (let idState :=
        match extract_video_id link with
        | some v => if v != "" then (v, s) else takeTemp s
        | none => takeTemp s
      let filepath := media_filepath idState.1 video
      if filepath ∈ idState.2.files then ((some filepath, true), idState.2, 0)
      else if resolve link then
        ((some filepath, true), { idState.2 with files := filepath :: idState.2.files }, 1)
      else ((none, false), idState.2, 1)) := rfl

/-- Case analysis of the download worker: some video id and an id-state
with unchanged files exist such that the worker behaves as the
exists-check / resolve / fail cascade on the path derived from that id;
the id is either a truthy extraction result or a fresh temp name. -/
lemma ytdl_download_spec (resolve : String → Bool) (video : Bool)
    (link : String) (s : DlState) :
    ∃ vid s1, s1.files = s.files ∧
      ((extract_video_id link = some vid ∧ vid ≠ "") ∨
        (∃ n, vid = "temp_" ++ s.rng n)) ∧
      ytdl_download resolve video link s =
        (if media_filepath vid video ∈ s.files then
          ((some (media_filepath vid video), true), s1, 0)
        else if resolve link then
          ((some (media_filepath vid video), true),
            { s1 with files := media_filepath vid video :: s1.files }, 1)
        else ((none, false), s1, 1)) := by
  rw [ytdl_download_eq]
  cases he : extract_video_id link with
  | none =>
    exact ⟨"temp_" ++ s.rng s.rngIdx, (takeTemp s).2, rfl,
      Or.inr ⟨s.rngIdx, rfl⟩, by simp [takeTemp]⟩
  | some v =>
    by_cases hv : v = ""
    · subst hv
      exact ⟨"temp_" ++ s.rng s.rngIdx, (takeTemp s).2, rfl,
        Or.inr ⟨s.rngIdx, rfl⟩, by simp [takeTemp]⟩
    · have hb : (v != "") = true := by simp [hv]
      exact ⟨v, s, rfl, Or.inl ⟨rfl, hv⟩, by simp [hb]⟩

/-! ## Concrete oracles and states used by the witnesses -/

/-- Provider oracle whose every response is the exception path. -/
def emptyProvider : Provider :=
  ⟨fun _ => none, fun _ => none, fun _ _ => none⟩

/-- Provider oracle whose search endpoint answers with zero items. -/
def noMatchProvider : Provider :=
  ⟨fun _ => some [], fun _ => none, fun _ _ => none⟩

/-- Provider oracle whose playlist endpoint honours `maxResults` and has
two items available. -/
def twoItemPlaylistProvider : Provider :=
  ⟨fun _ => none, fun _ => none,
    fun _ n => some (if 2 ≤ n then [⟨"a"⟩, ⟨"b"⟩] else [])⟩

/-- Download state with empty local storage and a fixed randomness
stream producing a fresh suffix per draw. -/
def dlInit : DlState :=
  ⟨[], fun n => if n = 0 then "aaaaaaaa" else "bbbbbbbb", 0⟩

/-- Resolver oracle that always succeeds. -/
def alwaysResolve : String → Bool := fun _ => true

/-- Resolver oracle that always fails. -/
def neverResolve : String → Bool := fun _ => false

end YouTubeAPI

open YouTubeAPI in
/-- C2 counterexample: at the claim-supplied inputs `PT4M30S` and `PT45S`
the parser does not produce the claimed display strings `4:30` and
`0:45`; the source zero-pads the minutes field, producing `04:30` and
`00:45`. -/
theorem c2_parse_duration_claim_false :
    ¬ (parse_duration (some "PT4M30S") = (270, "4:30") ∧
       parse_duration (some "PT45S") = (45, "0:45")) := by
  decide

open YouTubeAPI in
/-- C2 amended: for every ISO-8601 duration string of the form
`PT{m}M{s}S` (either component optional, digits arbitrary, seconds below
60) the parser returns total whole seconds `60*m + s` and a display
string in which BOTH the minutes and the seconds field are zero-padded to
two digits, `{m:02d}:{s:02d}`; in particular `PT4M30S` yields
`(270, "04:30")` and `PT45S` yields `(45, "00:45")`. -/
theorem c2_parse_duration_amended (ds1 ds2 : List Char)
    (h1 : ds1 ≠ []) (h2 : ds2 ≠ [])
    (hd1 : ∀ c ∈ ds1, c.isDigit = true) (hd2 : ∀ c ∈ ds2, c.isDigit = true)
    (hs : digitsVal ds2 < 60) :
    parse_duration (some (String.mk ('P' :: 'T' :: (ds1 ++ 'M' :: (ds2 ++ ['S']))))) =
      (60 * digitsVal ds1 + digitsVal ds2,
        pad2 (digitsVal ds1) ++ ":" ++ pad2 (digitsVal ds2)) ∧
    parse_duration (some (String.mk ('P' :: 'T' :: (ds2 ++ ['S'])))) =
      (digitsVal ds2, pad2 0 ++ ":" ++ pad2 (digitsVal ds2)) ∧
    parse_duration (some (String.mk ('P' :: 'T' :: (ds1 ++ ['M'])))) =
      (60 * digitsVal ds1, pad2 (digitsVal ds1) ++ ":" ++ pad2 0) := by
  have hdiv : (60 * digitsVal ds1 + digitsVal ds2) / 60 = digitsVal ds1 := by
    omega
  have hmod : (60 * digitsVal ds1 + digitsVal ds2) % 60 = digitsVal ds2 := by
    omega
  have hdiv2 : digitsVal ds2 / 60 = 0 := by omega
  have hmod2 : digitsVal ds2 % 60 = digitsVal ds2 := by omega
  have hdiv3 : (60 * digitsVal ds1) / 60 = digitsVal ds1 := by omega
  have hmod3 : (60 * digitsVal ds1) % 60 = 0 := by omega
  refine ⟨?_, ?_, ?_⟩
  · rw [parse_duration_PT, parse_period_tail_MS ds1 ds2 h1 h2 hd1 hd2]
    simp [hdiv, hmod]
  · rw [parse_duration_PT, parse_period_tail_S ds2 h2 hd2]
    simp [hdiv2, hmod2]
  · rw [parse_duration_PT, parse_period_tail_M ds1 h1 hd1]
    simp [hdiv3, hmod3]

open YouTubeAPI in
/-- Witness for the amended C2 at the spec examples: `PT4M30S` gives
`(270, "04:30")` and `PT45S` gives `(45, "00:45")`. -/
theorem c2_parse_duration_amended_witness :
    parse_duration (some "PT4M30S") = (270, "04:30") ∧
    parse_duration (some "PT45S") = (45, "00:45") := by
  have h := c2_parse_duration_amended ['4'] ['3', '0'] (by decide) (by decide)
    (by decide) (by decide) (by decide)
  have h45 := c2_parse_duration_amended ['9'] ['4', '5'] (by decide) (by decide)
    (by decide) (by decide) (by decide)
  exact ⟨h.1, h45.2.1⟩

open YouTubeAPI in
/-- C8: a missing duration (`None`), an empty duration string, and any
duration string on which the isodate model fails to parse all yield
`(0, "00:00")`; the parse failure is caught, so a malformed duration
never fails the enclosing lookup. -/
theorem c8_parse_duration_defaults :
    parse_duration none = (0, "00:00") ∧
    parse_duration (some "") = (0, "00:00") ∧
    ∀ s : String, isodate_parse_duration s = none →
      parse_duration (some s) = (0, "00:00") := by
  refine ⟨rfl, rfl, ?_⟩
  intro s h
  by_cases hs : s = ""
  · subst hs; rfl
  · rw [parse_duration, if_neg hs, h]

open YouTubeAPI in
/-- Witness for C8 at a concrete unparseable duration string. -/
theorem c8_parse_duration_defaults_witness :
    parse_duration (some "not a duration") = (0, "00:00") :=
  c8_parse_duration_defaults.2.2 "not a duration" (by decide)

open YouTubeAPI in
/-- C6: for every locator from which `_extract_video_id` yields a truthy
video id, `details` issues exactly one API call, the `videos` (detail)
endpoint with that id — the search round trip is skipped entirely. -/
theorem c6_details_direct_id_single_roundtrip (p : Provider) (key link q : String)
    (hq : extract_video_id link = some q) (hne : q ≠ "") :
    (details p key link false).2 = [ApiCall.videos q key] := by
  have hb : isTruthy (some q) = true := by simp [isTruthy, hne]
  cases hv : p.videosResp q with
  | none =>
    simp [details, hq, hb, get_video_details_by_id, fetch_videos, hv]
  | some items =>
    simp [details, hq, hb, get_video_details_by_id, fetch_videos, hv]

open YouTubeAPI in
/-- Witness for C6 at the short-link example: only the detail endpoint is
called, with the extracted id. -/
theorem c6_details_direct_id_single_roundtrip_witness :
    (details emptyProvider "k" "https://youtu.be/dQw4w9WgXcQ" false).2 =
      [ApiCall.videos "dQw4w9WgXcQ" "k"] :=
  c6_details_direct_id_single_roundtrip emptyProvider "k"
    "https://youtu.be/dQw4w9WgXcQ" "dQw4w9WgXcQ" (by decide) (by decide)

open YouTubeAPI in
/-- C1: for every free-text locator (truthiness of the extracted id is
false), `details` first calls the search endpoint; a failed, item-less
search raises the not-found error with no detail call attempted; when the
search returns a first item, the detail endpoint is called second with
that item id; and a result tuple is only returned when both endpoints
confirmed at least one item. -/
theorem c1_details_free_text_contract (p : Provider) (key link : String)
    (hfree : isTruthy (extract_video_id link) = false) :
    ((p.searchResp link = none ∨ p.searchResp link = some []) →
      details p key link false =
        (Except.error "No video found on YouTube.", [ApiCall.search link 1 key])) ∧
    (∀ s0 rest, p.searchResp link = some (s0 :: rest) →
      (details p key link false).2 =
        [ApiCall.search link 1 key, ApiCall.videos s0.videoId key]) ∧
    (∀ t, (details p key link false).1 = Except.ok t →
      ∃ s0 srest item vrest, p.searchResp link = some (s0 :: srest) ∧
        p.videosResp s0.videoId = some (item :: vrest)) := by
  have hbranch : details p key link false = details_search_branch p key link := by
    simp [details, hfree]
  refine ⟨?_, ?_, ?_⟩
  · intro h
    rcases h with hs | hs <;>
      simp [hbranch, details_search_branch, get_video_details_by_search,
        fetch_search, hs]
  · intro s0 rest hs
    cases hv : p.videosResp s0.videoId with
    | none =>
      simp [hbranch, details_search_branch, get_video_details_by_search,
        fetch_search, hs, get_video_details_by_id, fetch_videos, hv]
    | some items =>
      simp [hbranch, details_search_branch, get_video_details_by_search,
        fetch_search, hs, get_video_details_by_id, fetch_videos, hv]
  · intro t hok
    rw [hbranch] at hok
    cases hs : p.searchResp link with
    | none =>
      simp [details_search_branch, get_video_details_by_search,
        fetch_search, hs] at hok
    | some sitems =>
      cases sitems with
      | nil =>
        simp [details_search_branch, get_video_details_by_search,
          fetch_search, hs] at hok
      | cons s0 srest =>
        cases hv : p.videosResp s0.videoId with
        | none =>
          simp [details_search_branch, get_video_details_by_search,
            fetch_search, hs, get_video_details_by_id, fetch_videos, hv,
            finish_details] at hok
        | some vitems =>
          cases vitems with
          | nil =>
            simp [details_search_branch, get_video_details_by_search,
              fetch_search, hs, get_video_details_by_id, fetch_videos, hv,
              finish_details] at hok
          | cons item vrest =>
            exact ⟨s0, srest, item, vrest, rfl, hv⟩

open YouTubeAPI in
/-- Witness for C1 at the spec example: a free-text search with zero
provider matches raises the not-found error after the single search
call. -/
theorem c1_details_free_text_contract_witness :
    details noMatchProvider "k" "Arijit Singh Tum Hi Ho" false =
      (Except.error "No video found on YouTube.",
        [ApiCall.search "Arijit Singh Tum Hi Ho" 1 "k"]) :=
  (c1_details_free_text_contract noMatchProvider "k" "Arijit Singh Tum Hi Ho"
    (by decide)).1 (Or.inr rfl)

open YouTubeAPI in
/-- C4 counterexample: with the API key absent (empty), a search fetch
still attempts its network round trip — the trace of attempted calls is
nonempty, carrying the empty key — so the absence is not surfaced before
a network call is attempted. -/
theorem c4_missing_key_claim_false :
    (fetch_search emptyProvider "" "lofi" 1).2 = [ApiCall.search "lofi" 1 ""] ∧
    (fetch_search emptyProvider "" "lofi" 1).2 ≠ [] := by
  exact ⟨rfl, by simp [fetch_search]⟩

open YouTubeAPI in
/-- C4 amended: an absent (empty) API key is logged as an error at client
construction, but operations needing the key do not fail early: the
network call is still attempted with the empty key attached, and a failed
round trip is caught and surfaced as no result (`none`) rather than
thrown. -/
theorem c4_missing_key_logged_then_call_attempted (p : Provider) (q : String)
    (h : p.searchResp q = none) :
    init_logs_missing_key "" = true ∧
    fetch_search p "" q 1 = (none, [ApiCall.search q 1 ""]) :=
  ⟨rfl, by rw [fetch_search, h]⟩

open YouTubeAPI in
/-- Witness for the amended C4 at a concrete provider that rejects the
request. -/
theorem c4_missing_key_logged_then_call_attempted_witness :
    init_logs_missing_key "" = true ∧
    fetch_search emptyProvider "" "lofi" 1 =
      (none, [ApiCall.search "lofi" 1 ""]) :=
  c4_missing_key_logged_then_call_attempted emptyProvider "lofi" rfl

open YouTubeAPI in
/-- C5: provided the provider honours `maxResults` (its documented
contract, requested by the source as `maxResults = limit`), `playlist`
returns at most `limit` ids; the ids are exactly the provider items in
provider order; and a locator with no extractable `list=` parameter
yields the empty sequence with no network call and no error. -/
theorem c5_playlist_limit_order_empty (p : Provider) (key link : String)
    (limit : Nat)
    (hcap : ∀ pid n items, p.playlistResp pid n = some items →
      items.length ≤ n) :
    (findListId link.data = none → playlist p key link limit false = ([], [])) ∧
    (playlist p key link limit false).1.length ≤ limit ∧
    (∀ pid items, findListId link.data = some pid →
      p.playlistResp (String.mk pid) limit = some items →
      (playlist p key link limit false).1 = items.map PlaylistItem.videoId) := by
  refine ⟨?_, ?_, ?_⟩
  · intro h
    simp [playlist, h]
  · cases hf : findListId link.data with
    | none => simp [playlist, hf]
    | some pid =>
      cases hr : p.playlistResp (String.mk pid) limit with
      | none => simp [playlist, fetch_playlistItems, hf, hr]
      | some items =>
        have hlen := hcap (String.mk pid) limit items hr
        simp [playlist, fetch_playlistItems, hf, hr]
        simpa using hlen
  · intro pid items hf hr
    simp [playlist, fetch_playlistItems, hf, hr]

open YouTubeAPI in
/-- Witness for C5: a playlist link yields the two available ids in
provider order within the limit, and a plain-text locator yields the
empty sequence with no call. -/
theorem c5_playlist_limit_order_empty_witness :
    (playlist twoItemPlaylistProvider "k" "https://youtube.com/playlist?list=PLx9" 25 false).1 =
      ["a", "b"] ∧
    (playlist twoItemPlaylistProvider "k" "Arijit Singh Tum Hi Ho" 25 false) =
      ([], []) := by
  have hcap : ∀ pid n items,
      twoItemPlaylistProvider.playlistResp pid n = some items →
      items.length ≤ n := by
    intro pid n items h
    by_cases h2 : 2 ≤ n
    · simp [twoItemPlaylistProvider, h2] at h
      rw [← h]
      simpa using h2
    · simp [twoItemPlaylistProvider, h2] at h
      subst h
      simp
  have h3 := (c5_playlist_limit_order_empty twoItemPlaylistProvider "k"
    "https://youtube.com/playlist?list=PLx9" 25 hcap).2.2
    ("PLx9".data) [⟨"a"⟩, ⟨"b"⟩] (by decide) (by decide)
  have h1 := (c5_playlist_limit_order_empty twoItemPlaylistProvider "k"
    "Arijit Singh Tum Hi Ho" 25 hcap).1 (by decide)
  exact ⟨by rw [h3]; rfl, h1⟩

open YouTubeAPI in
/-- C3 counterexample: for a free-text locator (no extractable video id)
the download worker names the file with a fresh random temp suffix on
every call, so two successive calls each perform one resolver invocation
(two in total, not one) and return two different paths. -/
theorem c3_download_claim_false :
    (download alwaysResolve "some song" false false dlInit).2.2 = 1 ∧
    (download alwaysResolve "some song" false false
      (download alwaysResolve "some song" false false dlInit).2.1).2.2 = 1 ∧
    (download alwaysResolve "some song" false false
        (download alwaysResolve "some song" false false dlInit).2.1).1.1 ≠
      (download alwaysResolve "some song" false false dlInit).1.1 := by
  decide

open YouTubeAPI in
/-- C3 amended: for every locator from which a truthy video id is
extractable (and given a succeeding resolver), two successive download
calls for the same locator and media kind perform the underlying
resolution only once — the first call resolves and creates the file at
the deterministic path, the second observes the existing file and returns
the same path with zero resolver invocations and unchanged state. -/
theorem c3_download_idempotent_on_direct_ids (resolve : String → Bool)
    (link v : String) (video : Bool) (s : DlState)
    (hv : extract_video_id link = some v) (hne : v ≠ "")
    (hres : resolve link = true)
    (hnew : media_filepath v video ∉ s.files) :
    (download resolve link video false s).1 =
      (some (media_filepath v video), true) ∧
    (download resolve link video false s).2.2 = 1 ∧
    media_filepath v video ∈ (download resolve link video false s).2.1.files ∧
    (download resolve link video false
        (download resolve link video false s).2.1).1 =
      (some (media_filepath v video), true) ∧
    (download resolve link video false
        (download resolve link video false s).2.1).2.2 = 0 ∧
    (download resolve link video false
        (download resolve link video false s).2.1).2.1 =
      (download resolve link video false s).2.1 := by
  have hb : (v != "") = true := by simp [hne]
  have h1 : download resolve link video false s =
      ((some (media_filepath v video), true),
        { s with files := media_filepath v video :: s.files }, 1) := by
    simp [download, ytdl_download, hv, hb, hres, hnew]
  have hmem : media_filepath v video ∈
      ({ s with files := media_filepath v video :: s.files } : DlState).files :=
    List.mem_cons_self _ _
  have h2 : download resolve link video false
      ({ s with files := media_filepath v video :: s.files } : DlState) =
      ((some (media_filepath v video), true),
        { s with files := media_filepath v video :: s.files }, 0) := by
    simp [download, ytdl_download, hv, hb]
  rw [h1]
  rw [h2]
  exact ⟨rfl, rfl, hmem, rfl, rfl, rfl⟩

open YouTubeAPI in
/-- Witness for the amended C3 at the short-link example: the first call
resolves once, the second call performs zero resolver invocations and
returns the same path. -/
theorem c3_download_idempotent_on_direct_ids_witness :
    (download alwaysResolve "https://youtu.be/dQw4w9WgXcQ" false false dlInit).1 =
      (some "downloads/dQw4w9WgXcQ.mp3", true) ∧
    (download alwaysResolve "https://youtu.be/dQw4w9WgXcQ" false false dlInit).2.2 = 1 ∧
    (download alwaysResolve "https://youtu.be/dQw4w9WgXcQ" false false
        (download alwaysResolve "https://youtu.be/dQw4w9WgXcQ" false false dlInit).2.1).1 =
      (some "downloads/dQw4w9WgXcQ.mp3", true) ∧
    (download alwaysResolve "https://youtu.be/dQw4w9WgXcQ" false false
        (download alwaysResolve "https://youtu.be/dQw4w9WgXcQ" false false dlInit).2.1).2.2 = 0 := by
  have h := c3_download_idempotent_on_direct_ids alwaysResolve
    "https://youtu.be/dQw4w9WgXcQ" "dQw4w9WgXcQ" false dlInit
    (by decide) (by decide) rfl (by decide)
  exact ⟨h.1, h.2.1, h.2.2.2.1, h.2.2.2.2.1⟩

open YouTubeAPI in
/-- C9: the download operation never raises; its outcome is structured
data: whenever the returned ready flag is false the path is `none`;
whenever it is true a path exists; and when the resolver was invoked and
failed, the result is exactly `(none, false)`. -/
theorem c9_download_structured_failure (resolve : String → Bool)
    (link : String) (video videoid : Bool) (s : DlState) :
    ((download resolve link video videoid s).1.2 = false →
      (download resolve link video videoid s).1.1 = none) ∧
    ((download resolve link video videoid s).1.2 = true →
      ∃ fp, (download resolve link video videoid s).1.1 = some fp) ∧
    ((download resolve link video videoid s).2.2 = 1 →
      resolve (if videoid then "https://www.youtube.com/watch?v=" ++ link
        else link) = false →
      (download resolve link video videoid s).1 = (none, false)) := by
  obtain ⟨vid, s1, hfiles, hsrc, heq⟩ := ytdl_download_spec resolve video
    (if videoid then "https://www.youtube.com/watch?v=" ++ link else link) s
  rw [download] at *
  rw [heq]
  by_cases hmem : media_filepath vid video ∈ s.files
  · simp [hmem]
  · cases hres : resolve
        (if videoid then "https://www.youtube.com/watch?v=" ++ link else link) with
    | true => simp [hmem, hres]
    | false => simp [hmem, hres]

open YouTubeAPI in
/-- Witness for C9 at a concrete failing resolver: the result is the
structured failure `(none, false)`. -/
theorem c9_download_structured_failure_witness :
    (download neverResolve "https://youtu.be/dQw4w9WgXcQ" false false dlInit).1 =
      (none, false) :=
  (c9_download_structured_failure neverResolve "https://youtu.be/dQw4w9WgXcQ"
    false false dlInit).2.2 (by decide) rfl

open YouTubeAPI in
/-- C10: every successful download (ready flag true) returns a path of
the form `downloads/<id>.mp4` when video output was requested and
`downloads/<id>.mp3` otherwise, where the id segment contains no slash
(given that the randomness stream produces slash-free suffixes) — the
file lies directly in the downloads directory and the extension is
determined solely by the requested media kind. -/
theorem c10_download_path_shape (resolve : String → Bool) (link : String)
    (video videoid : Bool) (s : DlState)
    (hrng : ∀ n, '/' ∉ (s.rng n).data) :
    (download resolve link video videoid s).1.2 = true →
    ∃ vid, (download resolve link video videoid s).1.1 =
        some ("downloads/" ++ vid ++ (if video then ".mp4" else ".mp3")) ∧
      '/' ∉ vid.data := by
  intro hready
  obtain ⟨vid, s1, hfiles, hsrc, heq⟩ := ytdl_download_spec resolve video
    (if videoid then "https://www.youtube.com/watch?v=" ++ link else link) s
  have hnoslash : '/' ∉ vid.data := by
    rcases hsrc with ⟨hex, _⟩ | ⟨n, htemp⟩
    · exact extract_video_id_no_slash _ _ hex
    · rw [htemp]
      rw [show ("temp_" ++ s.rng n).data = "temp_".data ++ (s.rng n).data from
        data_append _ _]
      intro hmem
      rcases List.mem_append.mp hmem with h1 | h2
      · exact absurd h1 (by decide)
      · exact hrng n h2
  rw [download] at *
  rw [heq] at hready ⊢
  by_cases hmem : media_filepath vid video ∈ s.files
  · refine ⟨vid, ?_, hnoslash⟩
    rw [if_pos hmem]
    rfl
  · cases hres : resolve
        (if videoid then "https://www.youtube.com/watch?v=" ++ link else link) with
    | true =>
      refine ⟨vid, ?_, hnoslash⟩
      rw [if_neg hmem]
      rfl
    | false =>
      rw [if_neg hmem, hres] at hready
      simp at hready

open YouTubeAPI in
/-- Witness for C10: an audio download of the short-link example returns
the slash-free id path with the `.mp3` extension. -/
theorem c10_download_path_shape_witness :
    ∃ vid, (download alwaysResolve "https://youtu.be/dQw4w9WgXcQ" false false
        dlInit).1.1 =
      some ("downloads/" ++ vid ++ ".mp3") ∧ '/' ∉ vid.data := by
  have h := c10_download_path_shape alwaysResolve "https://youtu.be/dQw4w9WgXcQ"
    false false dlInit
    (by
      intro n
      by_cases hn : n = 0 <;> simp [dlInit, hn])
    (by decide)
  simpa using h

section SanityChecks

example : YouTubeAPI.extract_video_id "https://youtu.be/dQw4w9WgXcQ" =
    some "dQw4w9WgXcQ" := by decide

example : YouTubeAPI.extract_video_id
    "https://www.youtube.com/watch?v=dQw4w9WgXcQ" = some "dQw4w9WgXcQ" := by
  decide

example : YouTubeAPI.extract_video_id "Arijit Singh Tum Hi Ho" = none := by
  decide

example : YouTubeAPI.parse_duration (some "PT4M30S") = (270, "04:30") := by
  decide

example : YouTubeAPI.parse_duration (some "PT45S") = (45, "00:45") := by
  decide

example : YouTubeAPI.parse_duration (some "garbage") = (0, "00:00") := by
  decide

example : YouTubeAPI.parse_duration (some "PT") = (0, "00:00") := by decide

example : YouTubeAPI.parse_duration none = (0, "00:00") := by decide

example : YouTubeAPI.parse_duration (some "PT1H2M3S") = (3723, "62:03") := by
  decide

end SanityChecks
